import Mathlib

set_option autoImplicit false

/-!
Verification development for the credential storage core of Domeneshop-CLI
(`src/credentials.py`).  The Python module is embedded shallowly: the process
state (keychain secret store, keychain account index, credentials file,
environment variables) becomes an explicit `St` structure, and each public
function of the module becomes a Lean function threading that state.

Modelling conventions, chosen to match the source:
* `keyring.get_password` / `set_password` operate on a string-keyed map
  (`kcStore`); `delete_password` fails (raises) when the key is absent,
  which the embedding reflects by returning `Option`.
* The account index, which the source stores JSON-encoded under the reserved
  `"_accounts"` key, is carried as a `List String` field (`kcIndex`); the
  JSON round trip is the identity on lists of names, and no claim probes a
  malformed index.
* The credentials file is `Option Doc`: `none` is a missing file, `some d`
  an existing file parsing to the dictionary `d` (an unparsable file parses
  to the empty dictionary, as in `_read_file_data`).  `fileWritable` models
  whether `_write_file_data` succeeds.
* `keyring` being importable and functional is one flag `kcAvail`; when the
  backend is functional, get/set succeed.
* Python truthiness of an optional string (`if token:`) is `pyTruthy`.
-/

namespace Domeneshop

universe u

/-- Association-list lookup mirroring Python dict access: first binding wins
(dictionaries have unique keys, so any arbitrary-state duplicates are junk). -/
def kvGet {α : Type u} : List (String × α) → String → Option α
  | [], _ => none
  | (k', v) :: rest, k => if k' = k then some v else kvGet rest k

/-- Dictionary assignment `d[k] = v`: every binding of `k` is replaced. -/
def kvSet {α : Type u} (l : List (String × α)) (k : String) (v : α) :
    List (String × α) :=
  l.filter (fun p => !(p.1 == k)) ++ [(k, v)]

/-- Dictionary deletion `del d[k]`. -/
def kvRemove {α : Type u} (l : List (String × α)) (k : String) :
    List (String × α) :=
  l.filter (fun p => !(p.1 == k))

/-- Truthiness of `Optional[str]` in Python: present and non-empty. -/
def pyTruthy : Option String → Bool
  | none => false
  | some s => !(s == "")

/-- Python `str.strip()` on the character list of a string. -/
def pyStrip (s : String) : String :=
  ⟨((s.data.dropWhile Char.isWhitespace).reverse.dropWhile
      Char.isWhitespace).reverse⟩

/-- One entry of the `accounts` object of a multi-account document:
`{"token": ..., "secret": ...}` where either key may be missing. -/
structure AccountEntry where
  token : Option String
  secret : Option String
deriving DecidableEq

/-- The parsed JSON dictionary held by `~/.domeneshop-credentials`, restricted
to the keys the source inspects: `version`, `accounts`, `token`, `secret`.
A key that is absent is `none`. -/
structure Doc where
  version : Option Nat
  accounts : Option (List (String × AccountEntry))
  token : Option String
  secret : Option String
deriving DecidableEq

/-- The empty dictionary `{}` that `_read_file_data` yields for a missing or
unparsable file. -/
def emptyDoc : Doc := ⟨none, none, none, none⟩

/-- Embeds `CREDENTIAL_VERSION = 2`. -/
def CREDENTIAL_VERSION : Nat := 2

/-- Embeds `_is_legacy_format`: `"token" in data and "secret" in data and "version"
not in data`. -/
def is_legacy_format (d : Doc) : Bool :=
  d.token.isSome && d.secret.isSome && d.version.isNone

/-- Embeds `_is_multi_account_format`: `data.get("version") == CREDENTIAL_VERSION and
"accounts" in data`. -/
def is_multi_account_format (d : Doc) : Bool :=
  (d.version == some CREDENTIAL_VERSION) && d.accounts.isSome

/-- The whole observable process state: keychain secret store and availability,
the keychain account index (stored by the source JSON-encoded under the
reserved `"_accounts"` key), the credentials file, whether file writes
succeed, and the two environment variables. -/
structure St where
  kcAvail : Bool
  kcStore : List (String × String)
  kcIndex : List String
  file : Option Doc
  fileWritable : Bool
  envToken : Option String
  envSecret : Option String
deriving DecidableEq

/-- Embeds `_read_file_data`: the parsed file, or `{}` when missing/unparsable. -/
def read_file_data (s : St) : Doc := s.file.getD emptyDoc

/-- Embeds `_write_file_data`: overwrite the file; report failure without raising. -/
def write_file_data (s : St) (d : Doc) : Bool × St :=
  if s.fileWritable then (true, { s with file := some d }) else (false, s)

/-- Embeds `_get_keychain_key`: `f"{account_name}:{key_type}"`. -/
def get_keychain_key (account_name key_type : String) : String :=
  account_name ++ ":" ++ key_type

/-- Embeds `keyring.get_password(SERVICE_NAME, key)`. -/
def kcGetPassword (s : St) (key : String) : Option String :=
  kvGet s.kcStore key

/-- Embeds `keyring.set_password(SERVICE_NAME, key, value)`. -/
def kcSetPassword (s : St) (key value : String) : St :=
  { s with kcStore := kvSet s.kcStore key value }

/-- Embeds `keyring.delete_password(SERVICE_NAME, key)`: raises (here: `none`) when
the key is absent. -/
def kcDeletePassword (s : St) (key : String) : Option St :=
  if (kvGet s.kcStore key).isSome then
    some { s with kcStore := kvRemove s.kcStore key }
  else none

/-- Embeds `_list_keychain_accounts`: the decoded `"_accounts"` index, or `[]` when
keyring is unavailable (or the index is absent/malformed). -/
def list_keychain_accounts (s : St) : List String :=
  if s.kcAvail then s.kcIndex else []

/-- Embeds `CredentialStorage.is_keyring_available`. -/
def is_keyring_available (s : St) : Bool := s.kcAvail

/-- Embeds `CredentialStorage.get_storage_type`. -/
def get_storage_type (s : St) : String :=
  if pyTruthy s.envToken then "environment"
  else if is_keyring_available s then
    if !(list_keychain_accounts s).isEmpty then "keychain"
    else if pyTruthy (kcGetPassword s "token") then "keychain"
    else if s.file.isSome then "file"
    else "none"
  else if s.file.isSome then "file"
  else "none"

/-- Lexicographic (code-point) comparison of strings, matching how Python
`sorted` orders `str`. -/
def lexLt : List Char → List Char → Bool
  | [], [] => false
  | [], _ :: _ => true
  | _ :: _, [] => false
  | a :: as, b :: bs =>
    if a.val < b.val then true
    else if b.val < a.val then false
    else lexLt as bs

/-- Insert into a sorted duplicate-free list, keeping it so. -/
def insertSortedUniq (x : String) : List String → List String
  | [] => [x]
  | y :: ys =>
    if x = y then y :: ys
    else if lexLt x.data y.data then x :: y :: ys
    else y :: insertSortedUniq x ys

/-- Python `sorted(list(set(...)))`. -/
def sortedUniq (l : List String) : List String := l.foldr insertSortedUniq []

/-- Embeds `list_accounts`: union of keychain-index names and file names (a legacy
file contributes `"Standard"`), sorted. -/
def list_accounts (s : St) : List String :=
  let fromKeychain : List String :=
    if s.kcAvail then list_keychain_accounts s else []
  let data := read_file_data s
  let fromFile : List String :=
    if is_multi_account_format data then (data.accounts.getD []).map (·.1)
    else if is_legacy_format data then ["Standard"]
    else []
  sortedUniq (fromKeychain ++ fromFile)

/-- The file-fallback half of `save_account` (from the `# Fallback til fil`
comment to the end): legacy data is first folded into a fresh multi-account
document under `"Standard"`, any other non-multi document is replaced by an
empty multi-account document, then the entry is upserted and written. -/
def save_account_file_part (name token secret : String) (s : St) :
    Bool × String × St :=
  let data := read_file_data s
  let data :=
    if is_legacy_format data then
      { version := some CREDENTIAL_VERSION
        accounts := some [("Standard", ⟨data.token, data.secret⟩)]
        token := none
        secret := none }
    else if !is_multi_account_format data then
      { version := some CREDENTIAL_VERSION, accounts := some []
        token := none, secret := none }
    else data
  let data :=
    { data with
      accounts := some (kvSet (data.accounts.getD []) name
        ⟨some token, some secret⟩) }
  match write_file_data s data with
  | (true, s') => (true, "file", s')
  | (false, s') => (false, "failed", s')

/-- The keychain half of `save_account` (under `# Prøv keychain først`):
write both secrets, then ensure the name is tracked in the index. -/
def save_account_keychain_part (name token secret : String) (s : St) : St :=
  let s := kcSetPassword s (get_keychain_key name "token") token
  let s := kcSetPassword s (get_keychain_key name "secret") secret
  let accounts := list_keychain_accounts s
  if accounts.contains name then s
  else { s with kcIndex := accounts ++ [name] }

/-- Embeds `save_account`. -/
def save_account (name token secret : String) (prefer_keychain : Bool)
    (s : St) : Bool × String × St :=
  if name = "" || pyStrip name = "" then
    (false, "Kontonavn kan ikke være tomt", s)
  else
    let name := pyStrip name
    if prefer_keychain && s.kcAvail then
      (true, "keychain", save_account_keychain_part name token secret s)
    else
      save_account_file_part name token secret s

/-- The file half of `load_account` (under `# Prøv fil`): a multi-account
document answers with whatever fields its entry holds; a legacy document
answers only to the name `"Standard"`. -/
def load_account_file_part (name : String) (s : St) :
    Option String × Option String :=
  let data := read_file_data s
  if is_multi_account_format data then
    let account := (kvGet (data.accounts.getD []) name).getD ⟨none, none⟩
    (account.token, account.secret)
  else if is_legacy_format data && name == "Standard" then
    (data.token, data.secret)
  else (none, none)

/-- Embeds `load_account`. -/
def load_account (name : String) (s : St) : Option String × Option String :=
  if name = "" then (none, none)
  else
    let fromKeychain : Option (Option String × Option String) :=
      if s.kcAvail then
        let token := kcGetPassword s (get_keychain_key name "token")
        let secret := kcGetPassword s (get_keychain_key name "secret")
        if pyTruthy token && pyTruthy secret then some (token, secret)
        else none
      else none
    match fromKeychain with
    | some r => r
    | none => load_account_file_part name s

/-- The keychain half of `delete_account`: both per-account secrets are
deleted inside one `try`, so a missing key aborts the whole block (a
half-deleted pair is possible); only a fully successful block updates the
index and reports a deletion. -/
def delete_account_keychain_part (name : String) (s : St) : Bool × St :=
  if s.kcAvail then
    match kcDeletePassword s (get_keychain_key name "token") with
    | none => (false, s)
    | some s₁ =>
      match kcDeletePassword s₁ (get_keychain_key name "secret") with
      | none => (false, s₁)
      | some s₂ =>
        let accounts := list_keychain_accounts s₂
        if accounts.contains name then
          (true, { s₂ with kcIndex := accounts.erase name })
        else (true, s₂)
  else (false, s)

/-- Embeds `delete_account`: keychain part, then the file part, which removes the
entry only from a multi-account document (the write result is ignored and
`deleted` is set regardless). -/
def delete_account (name : String) (s : St) : Bool × St :=
  let kcRes := delete_account_keychain_part name s
  let data := read_file_data kcRes.2
  if is_multi_account_format data &&
      (kvGet (data.accounts.getD []) name).isSome then
    let data' :=
      { data with accounts := some (kvRemove (data.accounts.getD []) name) }
    (true, (write_file_data kcRes.2 data').2)
  else kcRes

/-- Embeds `rename_account`. -/
def rename_account (old_name new_name : String) (s : St) :
    Bool × String × St :=
  if new_name = "" || pyStrip new_name = "" then
    (false, "Nytt navn kan ikke være tomt", s)
  else
    let new_name := pyStrip new_name
    let cred := load_account old_name s
    if !(pyTruthy cred.1 && pyTruthy cred.2) then
      (false, "Konto \x27" ++ old_name ++ "\x27 finnes ikke", s)
    else if (list_accounts s).contains new_name && new_name ≠ old_name then
      (false, "Konto \x27" ++ new_name ++ "\x27 eksisterer allerede", s)
    else
      let saveRes := save_account new_name (cred.1.getD "") (cred.2.getD "")
        true s
      if !saveRes.1 then (false, "Kunne ikke lagre med nytt navn", saveRes.2.2)
      else
        (true,
          "Konto omdøpt fra \x27" ++ old_name ++ "\x27 til \x27" ++
            new_name ++ "\x27", (delete_account old_name saveRes.2.2).2)

/-- The inner `try` of `migrate_single_to_multi` that best-effort deletes
the legacy un-namespaced keys: a raising delete aborts the block (leaving
any earlier delete in place) but does not fail the migration. -/
def best_effort_delete_legacy (s : St) : St :=
  match kcDeletePassword s "token" with
  | some s' =>
    match kcDeletePassword s' "secret" with
    | some s'' => s''
    | none => s'
  | none => s

/-- The state change of the keychain branch of `migrate_single_to_multi` once
both legacy secrets were read: write the namespaced pair, ensure the index
tracks the name, then best-effort delete the legacy un-namespaced keys. -/
def migrate_single_keychain_success (account_name token secret : String)
    (s : St) : St :=
  let s := kcSetPassword s (get_keychain_key account_name "token") token
  let s := kcSetPassword s (get_keychain_key account_name "secret") secret
  let accounts := list_keychain_accounts s
  let s :=
    if accounts.contains account_name then s
    else { s with kcIndex := accounts ++ [account_name] }
  best_effort_delete_legacy s

/-- Embeds `migrate_single_to_multi`. -/
def migrate_single_to_multi (account_name : String) (s : St) :
    Bool × String × St :=
  let data := read_file_data s
  let fileBranch : Option (Bool × String × St) :=
    if is_legacy_format data then
      let new_data : Doc :=
        { version := some CREDENTIAL_VERSION
          accounts := some [(account_name, ⟨data.token, data.secret⟩)]
          token := none
          secret := none }
      match write_file_data s new_data with
      | (true, s') =>
        some (true, "Migrert fil-credentials til konto \x27" ++
          account_name ++ "\x27", s')
      | (false, _) => none
    else none
  match fileBranch with
  | some r => r
  | none =>
    if s.kcAvail then
      let token := kcGetPassword s "token"
      let secret := kcGetPassword s "secret"
      if pyTruthy token && pyTruthy secret then
        (true, "Migrert keychain-credentials til konto \x27" ++
          account_name ++ "\x27",
          migrate_single_keychain_success account_name (token.getD "")
            (secret.getD "") s)
      else (false, "Ingen legacy credentials å migrere", s)
    else (false, "Ingen legacy credentials å migrere", s)

/-- Embeds `needs_migration`. -/
def needs_migration (s : St) : Bool :=
  is_legacy_format (read_file_data s) ||
    (s.kcAvail && pyTruthy (kcGetPassword s "token"))

/-- The per-account body of the `migrate_file_to_keychain` loop: a complete
entry is copied into the keychain (and indexed) and counted, an incomplete
one skipped. -/
def migrate_one_account (acc : Nat × St) (p : String × AccountEntry) :
    Nat × St :=
  if pyTruthy p.2.token && pyTruthy p.2.secret then
    let st := kcSetPassword acc.2 (get_keychain_key p.1 "token")
      (p.2.token.getD "")
    let st := kcSetPassword st (get_keychain_key p.1 "secret")
      (p.2.secret.getD "")
    let accounts := list_keychain_accounts st
    let st :=
      if accounts.contains p.1 then st
      else { st with kcIndex := accounts ++ [p.1] }
    (acc.1 + 1, st)
  else acc

/-- The success message of `migrate_file_to_keychain`. -/
def migratedMsg (n : Nat) : String :=
  "Migrert " ++ toString n ++ " konto(er) til keychain"

/-- The part of `migrate_file_to_keychain` after the availability check and
legacy normalization: require a multi-account document, copy every complete
entry, and delete the file only when at least one account was copied. -/
def migrate_file_body (s : St) : Bool × String × St :=
  let data := read_file_data s
  if !is_multi_account_format data then
    (false, "Ingen fil-credentials å migrere", s)
  else
    let loopRes := (data.accounts.getD []).foldl migrate_one_account (0, s)
    if loopRes.1 > 0 then
      (true, migratedMsg loopRes.1, { loopRes.2 with file := none })
    else (false, "Ingen kontoer ble migrert", loopRes.2)

/-- Embeds `migrate_file_to_keychain`. -/
def migrate_file_to_keychain (s : St) : Bool × String × St :=
  if !s.kcAvail then
    (false, "Keyring er ikke tilgjengelig. Installer med: pip install keyring",
      s)
  else
    migrate_file_body
      (if is_legacy_format (read_file_data s) then
        (migrate_single_to_multi "Standard" s).2.2
      else s)

/-- The shape claim C4 asserts for every `load_account` result: either a
complete credential (both fields present and non-empty) or fully absent. -/
def complete_or_absent : Option String × Option String → Bool
  | (some t, some sec) => !(t == "") && !(sec == "")
  | (none, none) => true
  | _ => false

/-- A stored account entry carrying both fields, non-empty. -/
def entry_complete (e : AccountEntry) : Bool :=
  pyTruthy e.token && pyTruthy e.secret

/-- A file document is well-formed when every multi-account entry is
complete and, if legacy-shaped, its top-level pair is complete. -/
def doc_well_formed (d : Doc) : Bool :=
  (match d.accounts with
   | none => true
   | some l => l.all (fun p => entry_complete p.2)) &&
  (!is_legacy_format d || (pyTruthy d.token && pyTruthy d.secret))

/-- The classifier of claim C9, as amended: `"environment"` exactly when the
token environment variable alone is set non-empty (the secret variable is
not consulted); else `"keychain"` when the backend is available and either
the account index is non-empty or the legacy un-namespaced token key holds
a non-empty value; else `"file"` when the credentials file exists; else
`"none"`. -/
def storage_type_amended_spec (s : St) : String :=
  if pyTruthy s.envToken then "environment"
  else if s.kcAvail &&
      (!s.kcIndex.isEmpty || pyTruthy (kvGet s.kcStore "token")) then
    "keychain"
  else if s.file.isSome then "file"
  else "none"

/-! ## Supporting lemmas -/

theorem kvGet_cons {α : Type u} (a : String) (v : α) (rest : List (String × α))
    (k : String) :
    kvGet ((a, v) :: rest) k = if a = k then some v else kvGet rest k := rfl

theorem kvGet_filter_self {α : Type u} (l : List (String × α)) (k : String) :
    kvGet (l.filter (fun p => !(p.1 == k))) k = none := by
  induction l with
  | nil => rfl
  | cons p rest ih =>
    obtain ⟨a, v⟩ := p
    rw [List.filter_cons]
    by_cases h : a = k
    · simp [h, ih]
    · simp [beq_iff_eq, h, kvGet_cons, ih]

theorem kvGet_filter_ne {α : Type u} (l : List (String × α)) (k k' : String)
    (h : k' ≠ k) :
    kvGet (l.filter (fun p => !(p.1 == k))) k' = kvGet l k' := by
  induction l with
  | nil => rfl
  | cons p rest ih =>
    obtain ⟨a, v⟩ := p
    rw [List.filter_cons]
    by_cases ha : a = k
    · simp [ha, kvGet_cons, Ne.symm h, ih]
    · simp [beq_iff_eq, ha, kvGet_cons, ih]

theorem kvGet_append {α : Type u} (l₁ l₂ : List (String × α)) (k : String) :
    kvGet (l₁ ++ l₂) k =
      match kvGet l₁ k with
      | some v => some v
      | none => kvGet l₂ k := by
  induction l₁ with
  | nil => rfl
  | cons p rest ih =>
    obtain ⟨a, v⟩ := p
    by_cases hp : a = k
    · simp [kvGet_cons, hp]
    · simp [List.cons_append, kvGet_cons, hp, ih]

theorem kvGet_set_self {α : Type u} (l : List (String × α)) (k : String) (v : α) :
    kvGet (kvSet l k v) k = some v := by
  unfold kvSet
  rw [kvGet_append, kvGet_filter_self]
  simp [kvGet]

theorem kvGet_set_ne {α : Type u} (l : List (String × α)) (k k' : String) (v : α)
    (h : k' ≠ k) : kvGet (kvSet l k v) k' = kvGet l k' := by
  unfold kvSet
  rw [kvGet_append, kvGet_filter_ne l k k' h]
  cases hg : kvGet l k' with
  | none => simp [kvGet, kvGet_cons, Ne.symm h]
  | some v' => simp

theorem kvGet_remove_self {α : Type u} (l : List (String × α)) (k : String) :
    kvGet (kvRemove l k) k = none := kvGet_filter_self l k

theorem kvGet_remove_ne {α : Type u} (l : List (String × α)) (k k' : String)
    (h : k' ≠ k) : kvGet (kvRemove l k) k' = kvGet l k' :=
  kvGet_filter_ne l k k' h

theorem pyTruthy_some {s : String} (h : s ≠ "") : pyTruthy (some s) = true := by
  simp [pyTruthy, h]

theorem string_append_left_cancel {a b c : String} (h : a ++ b = a ++ c) :
    b = c := by
  have h2 : (a ++ b).data = (a ++ c).data := congrArg String.data h
  rw [String.data_append, String.data_append] at h2
  have h3 : b.data = c.data := List.append_cancel_left h2
  exact congrArg String.mk h3

theorem key_length (n f : String) :
    (get_keychain_key n f).length = n.length + 1 + f.length := by
  have hc : (":" : String).length = 1 := rfl
  simp [get_keychain_key, String.length_append, hc]

theorem key_token_ne_key_secret (n : String) :
    get_keychain_key n "token" ≠ get_keychain_key n "secret" := by
  intro h
  unfold get_keychain_key at h
  have := string_append_left_cancel h
  simp at this

theorem string_length_zero {n : String} (h : n.length = 0) : n = "" := by
  cases n with
  | mk d =>
    cases d with
    | nil => rfl
    | cons a b => simp [String.length] at h

theorem key_ne_of_ne (n f p : String) (hlen : p.length ≤ 1 + f.length)
    (hne : get_keychain_key "" f ≠ p) : get_keychain_key n f ≠ p := by
  intro he
  have h2 := congrArg String.length he
  rw [key_length] at h2
  have hn : n.length = 0 := by omega
  exact hne ((string_length_zero hn) ▸ he)

theorem key_token_ne_token (n : String) :
    get_keychain_key n "token" ≠ "token" :=
  key_ne_of_ne n "token" "token" (by decide) (by decide)

theorem key_secret_ne_token (n : String) :
    get_keychain_key n "secret" ≠ "token" :=
  key_ne_of_ne n "secret" "token" (by decide) (by decide)

theorem key_token_ne_secret (n : String) :
    get_keychain_key n "token" ≠ "secret" :=
  key_ne_of_ne n "token" "secret" (by decide) (by decide)

theorem key_secret_ne_secret (n : String) :
    get_keychain_key n "secret" ≠ "secret" :=
  key_ne_of_ne n "secret" "secret" (by decide) (by decide)

theorem kcPart_kcStore (n t sec : String) (s : St) :
    (save_account_keychain_part n t sec s).kcStore =
      kvSet (kvSet s.kcStore (get_keychain_key n "token") t)
        (get_keychain_key n "secret") sec := by
  simp only [save_account_keychain_part, kcSetPassword]
  split <;> rfl

theorem kcPart_kcAvail (n t sec : String) (s : St) :
    (save_account_keychain_part n t sec s).kcAvail = s.kcAvail := by
  simp only [save_account_keychain_part, kcSetPassword]
  split <;> rfl

theorem kcPart_file (n t sec : String) (s : St) :
    (save_account_keychain_part n t sec s).file = s.file := by
  simp only [save_account_keychain_part, kcSetPassword]
  split <;> rfl

/-- A successful run of the file half of `save_account` reports `"file"`,
requires a writable file, and leaves a multi-account document whose entry
for the saved name is exactly the given pair. -/
theorem file_part_success (m t sec : String) (s : St) (b : String) (s' : St)
    (hsave : save_account_file_part m t sec s = (true, b, s')) :
    b = "file" ∧ s.fileWritable = true ∧
    s'.kcAvail = s.kcAvail ∧ s'.kcStore = s.kcStore ∧
    s'.kcIndex = s.kcIndex ∧ s'.fileWritable = s.fileWritable ∧
    ∃ d : Doc, s'.file = some d ∧
      is_multi_account_format d = true ∧
      kvGet (d.accounts.getD []) m = some ⟨some t, some sec⟩ := by
  by_cases hw : s.fileWritable = true
  · simp only [save_account_file_part, write_file_data, hw, if_true] at hsave
    simp only [Prod.mk.injEq] at hsave
    obtain ⟨-, hb, hs'⟩ := hsave
    subst hs'
    refine ⟨hb.symm, hw, rfl, rfl, rfl, by simp [hw], ?_⟩
    by_cases hleg : is_legacy_format (read_file_data s) = true
    · refine ⟨_, rfl, ?_, ?_⟩
      · simp [hleg, is_multi_account_format]
      · simp [hleg, kvGet_set_self]
    · by_cases hmul : is_multi_account_format (read_file_data s) = true
      · refine ⟨_, rfl, ?_, ?_⟩
        · simp only [hleg, hmul, Bool.not_true, if_false, Bool.false_eq_true,
            if_true]
          unfold is_multi_account_format at hmul ⊢
          simp only [Bool.and_eq_true, beq_iff_eq] at hmul ⊢
          exact ⟨hmul.1, rfl⟩
        · simp [hleg, hmul, kvGet_set_self]
      · have hmulF : is_multi_account_format (read_file_data s) = false := by
          cases h : is_multi_account_format (read_file_data s) with
          | false => rfl
          | true => exact absurd h hmul
        have hlegF : is_legacy_format (read_file_data s) = false := by
          cases h : is_legacy_format (read_file_data s) with
          | false => rfl
          | true => exact absurd h hleg
        refine ⟨_, rfl, ?_, ?_⟩
        · simp only [hlegF, hmulF, Bool.not_false, Bool.false_eq_true,
            if_false, if_true]
          rfl
        · simp only [hlegF, hmulF, Bool.not_false, Bool.false_eq_true,
            if_false, if_true]
          simp [kvGet_set_self]
  · simp [save_account_file_part, write_file_data, hw] at hsave

/-! ## C1 -/

/-- C1, counterexample to the claim as frozen: with the file backend only
(keychain unavailable, writable file), `save_account(" A", "T", "S")` reports
success — it stores under the trimmed name `"A"` — but `load_account(" A")`
with the same (untrimmed, non-empty-after-trimming) name returns absent, not
the saved credential. -/
theorem C1_counterexample :
    (save_account " A" "T" "S" true
        ⟨false, [], [], none, true, none, none⟩).1 = true ∧
    load_account " A"
        (save_account " A" "T" "S" true
          ⟨false, [], [], none, true, none, none⟩).2.2 =
      (none, none) ∧
    ((none : Option String), (none : Option String)) ≠
      (some "T", some "S") := by
  refine ⟨by decide, by decide, by decide⟩

/-- C1 (amended): for every name `n` non-empty after trimming and complete
credential, if `save_account n token secret` (default keychain preference)
returns success then `load_account` of the TRIMMED name returns exactly the
saved pair, regardless of whether the save landed in the keychain or the
file backend.  (`save_account` stores under the trimmed name, `load_account`
does not trim, so the round trip as frozen holds only up to trimming.) -/
theorem C1_save_then_load_trimmed (n token secret : String) (s : St)
    (b : String) (s' : St) (htok : token ≠ "") (hsec : secret ≠ "")
    (hsave : save_account n token secret true s = (true, b, s')) :
    load_account (pyStrip n) s' = (some token, some secret) := by
  simp only [save_account] at hsave
  split at hsave
  · simp at hsave
  · rename_i hguard
    simp only [Bool.or_eq_true, decide_eq_true_eq, not_or] at hguard
    obtain ⟨hn, hm⟩ := hguard
    split at hsave
    · rename_i hkc
      have hkca : s.kcAvail = true := by simpa using hkc
      simp only [Prod.mk.injEq] at hsave
      obtain ⟨-, hb, hs'⟩ := hsave
      subst hs'
      have hT : kcGetPassword (save_account_keychain_part (pyStrip n)
          token secret s) (get_keychain_key (pyStrip n) "token") =
          some token := by
        unfold kcGetPassword
        rw [kcPart_kcStore,
          kvGet_set_ne _ _ _ _ (key_token_ne_key_secret (pyStrip n)),
          kvGet_set_self]
      have hS : kcGetPassword (save_account_keychain_part (pyStrip n)
          token secret s) (get_keychain_key (pyStrip n) "secret") =
          some secret := by
        unfold kcGetPassword
        rw [kcPart_kcStore, kvGet_set_self]
      simp [load_account, hm, kcPart_kcAvail, hkca, hT, hS,
        pyTruthy_some htok, pyTruthy_some hsec]
    · rename_i hkc
      simp only [Bool.true_and, Bool.not_eq_true] at hkc
      obtain ⟨hb, hw, hA, hSt, hI, hW, d, hfile, hmulti, hget⟩ :=
        file_part_success _ _ _ _ _ _ hsave
      have hrd : read_file_data s' = d := by simp [read_file_data, hfile]
      simp [load_account, load_account_file_part, hm, hA, hkc, hrd, hmulti,
        hget]

/-- C1 witness: the amended theorem applied at a concrete input (keychain
available, empty stores): saving `"Work"` and loading the trimmed name
round-trips. -/
theorem C1_save_then_load_trimmed_witness :
    load_account (pyStrip "Work")
        ⟨true, [("Work:token", "abc"), ("Work:secret", "xyz")], ["Work"],
          none, true, none, none⟩ = (some "abc", some "xyz") :=
  C1_save_then_load_trimmed "Work" "abc" "xyz"
    ⟨true, [], [], none, true, none, none⟩ "keychain"
    ⟨true, [("Work:token", "abc"), ("Work:secret", "xyz")], ["Work"],
      none, true, none, none⟩
    (by decide) (by decide) (by decide)

/-! ## C7 -/

/-- C7, counterexample to the claim as frozen: for a whitespace-only name the
failure is immediate and side-effect-free, but the second component of the
result is the error message `"Kontonavn kan ikke være tomt"`, which is none
of the declared `backendUsed` values `"keychain"`, `"file"`, `"failed"`. -/
theorem C7_counterexample :
    save_account "   " "T" "S" true ⟨true, [], [], none, true, none, none⟩ =
      (false, "Kontonavn kan ikke være tomt",
        ⟨true, [], [], none, true, none, none⟩) ∧
    ("Kontonavn kan ikke være tomt" ≠ "keychain" ∧
     "Kontonavn kan ikke være tomt" ≠ "file" ∧
     "Kontonavn kan ikke være tomt" ≠ "failed") := by
  refine ⟨by decide, by decide, by decide, by decide⟩

/-- C7 (amended): for every name that is empty or whitespace-only,
`save_account` fails immediately with no side effect on any backend — the
state is returned unchanged — and the second component of the result is the
error message `"Kontonavn kan ikke være tomt"` (not `"failed"`). -/
theorem C7_empty_name_save (n token secret : String) (p : Bool) (s : St)
    (h : pyStrip n = "") :
    save_account n token secret p s =
      (false, "Kontonavn kan ikke være tomt", s) := by
  simp [save_account, h]

/-- C7 witness: the amended theorem at the whitespace-only name `" "`. -/
theorem C7_empty_name_save_witness :
    save_account " " "T" "S" true
        ⟨false, [], [], some emptyDoc, true, none, none⟩ =
      (false, "Kontonavn kan ikke være tomt",
        ⟨false, [], [], some emptyDoc, true, none, none⟩) :=
  C7_empty_name_save " " "T" "S" true
    ⟨false, [], [], some emptyDoc, true, none, none⟩ (by decide)

/-! ## C5 -/

/-- C5, counterexample to the claim as frozen: `save_account` performs no
emptiness validation, so a credential with an empty token is accepted,
reported as a successful save to the file backend, and is afterwards
retrievable through `load_account` — observable as a successfully saved
account. -/
theorem C5_counterexample :
    (save_account "A" "" "x" true
        ⟨false, [], [], none, true, none, none⟩).1 = true ∧
    load_account "A"
        (save_account "A" "" "x" true
          ⟨false, [], [], none, true, none, none⟩).2.2 =
      (some "", some "x") := by
  refine ⟨by decide, by decide⟩

/-- C5 (amended): what does hold of the second half of the claim: a
successful `save_account` always writes token and secret together — the
backend that reported the save holds exactly the given pair under the
trimmed name, never a token without a secret. -/
theorem C5_save_writes_both (n token secret : String) (s : St) (b : String)
    (s' : St) (hsave : save_account n token secret true s = (true, b, s')) :
    (b = "keychain" ∧
      kcGetPassword s' (get_keychain_key (pyStrip n) "token") = some token ∧
      kcGetPassword s' (get_keychain_key (pyStrip n) "secret") =
        some secret) ∨
    (b = "file" ∧
      ∃ d : Doc, s'.file = some d ∧
        kvGet (d.accounts.getD []) (pyStrip n) =
          some ⟨some token, some secret⟩) := by
  simp only [save_account] at hsave
  split at hsave
  · simp at hsave
  · split at hsave
    · left
      simp only [Prod.mk.injEq] at hsave
      obtain ⟨-, hb, hs'⟩ := hsave
      subst hs'
      refine ⟨hb.symm, ?_, ?_⟩
      · unfold kcGetPassword
        rw [kcPart_kcStore,
          kvGet_set_ne _ _ _ _ (key_token_ne_key_secret (pyStrip n)),
          kvGet_set_self]
      · unfold kcGetPassword
        rw [kcPart_kcStore, kvGet_set_self]
    · right
      obtain ⟨hb, hw, hA, hSt, hI, hW, d, hfile, hmulti, hget⟩ :=
        file_part_success _ _ _ _ _ _ hsave
      exact ⟨hb, d, hfile, hget⟩

/-- C5 witness: the amended theorem at a concrete keychain save. -/
theorem C5_save_writes_both_witness :
    ("keychain" = "keychain" ∧
      kcGetPassword
          ⟨true, [("A:token", "tok"), ("A:secret", "sec")], ["A"],
            none, true, none, none⟩
          (get_keychain_key (pyStrip "A") "token") = some "tok" ∧
      kcGetPassword
          ⟨true, [("A:token", "tok"), ("A:secret", "sec")], ["A"],
            none, true, none, none⟩
          (get_keychain_key (pyStrip "A") "secret") = some "sec") ∨
    ("keychain" = "file" ∧
      ∃ d : Doc,
        (⟨true, [("A:token", "tok"), ("A:secret", "sec")], ["A"],
            none, true, none, none⟩ : St).file = some d ∧
        kvGet (d.accounts.getD []) (pyStrip "A") =
          some ⟨some "tok", some "sec"⟩) :=
  C5_save_writes_both "A" "tok" "sec"
    ⟨true, [], [], none, true, none, none⟩ "keychain"
    ⟨true, [("A:token", "tok"), ("A:secret", "sec")], ["A"],
      none, true, none, none⟩ (by decide)

/-! ## C4 -/

/-- C4, counterexample to the claim as frozen: with the keychain unavailable
and a multi-account file whose entry for `"A"` lacks the secret field,
`load_account "A"` returns the partial pair `(some "T", none)` — neither a
complete credential nor absent. -/
theorem C4_counterexample :
    load_account "A"
        ⟨false, [], [],
          some ⟨some 2, some [("A", ⟨some "T", none⟩)], none, none⟩,
          true, none, none⟩ = (some "T", none) ∧
    complete_or_absent
        (load_account "A"
          ⟨false, [], [],
            some ⟨some 2, some [("A", ⟨some "T", none⟩)], none, none⟩,
            true, none, none⟩) = false := by
  refine ⟨by decide, by decide⟩

theorem pyTruthy_iff {o : Option String} :
    pyTruthy o = true ↔ ∃ v, o = some v ∧ v ≠ "" := by
  cases o <;> simp [pyTruthy]

theorem kvGet_all {α : Type u} (l : List (String × α)) (k : String) (v : α)
    (p : α → Bool) (hall : l.all (fun q => p q.2) = true)
    (hget : kvGet l k = some v) : p v = true := by
  induction l with
  | nil => simp [kvGet] at hget
  | cons q rest ih =>
    obtain ⟨a, w⟩ := q
    simp only [List.all_cons, Bool.and_eq_true] at hall
    rw [kvGet_cons] at hget
    by_cases ha : a = k
    · rw [if_pos ha] at hget
      cases hget
      exact hall.1
    · rw [if_neg ha] at hget
      exact ih hall.2 hget

/-- The file half of `load_account` yields a complete-or-absent result on
every well-formed document. -/
theorem load_file_part_complete (n : String) (s : St)
    (hwf : doc_well_formed (read_file_data s) = true) :
    complete_or_absent (load_account_file_part n s) = true := by
  unfold load_account_file_part
  unfold doc_well_formed at hwf
  simp only [Bool.and_eq_true] at hwf
  obtain ⟨hacc, hlegc⟩ := hwf
  by_cases hmul : is_multi_account_format (read_file_data s) = true
  · simp only [hmul, if_true]
    cases hget : kvGet ((read_file_data s).accounts.getD []) n with
    | none => simp [hget, complete_or_absent]
    | some e =>
      have he : entry_complete e = true := by
        cases haccs : (read_file_data s).accounts with
        | none => simp [haccs, kvGet] at hget
        | some l =>
          rw [haccs] at hacc hget
          simp only [Option.getD_some] at hget
          exact kvGet_all l n e entry_complete hacc hget
      unfold entry_complete at he
      simp only [Bool.and_eq_true] at he
      obtain ⟨tv, hto, htv⟩ := pyTruthy_iff.mp he.1
      obtain ⟨sv, hso, hsv⟩ := pyTruthy_iff.mp he.2
      simp [hget, hto, hso, complete_or_absent, htv, hsv]
  · simp only [hmul, Bool.false_eq_true, if_false]
    by_cases hleg : (is_legacy_format (read_file_data s) &&
        (n == "Standard")) = true
    · simp only [hleg, if_true]
      simp only [Bool.and_eq_true] at hleg
      rw [hleg.1] at hlegc
      simp only [Bool.not_true, Bool.false_or, Bool.and_eq_true] at hlegc
      obtain ⟨tv, hto, htv⟩ := pyTruthy_iff.mp hlegc.1
      obtain ⟨sv, hso, hsv⟩ := pyTruthy_iff.mp hlegc.2
      simp [hto, hso, complete_or_absent, htv, hsv]
    · simp [hleg, complete_or_absent]

/-- C4 (amended): `load_account` returns a complete credential or fully
absent — never a partial pair — for every name, PROVIDED the file document
is well-formed (every stored entry complete).  The keychain path guarantees
this unconditionally; the file path does not validate entries, and a
multi-account entry lacking a field is returned as a partial pair
(`C4_counterexample`). -/
theorem C4_load_complete_or_absent (n : String) (s : St)
    (hwf : doc_well_formed (read_file_data s) = true) :
    complete_or_absent (load_account n s) = true := by
  unfold load_account
  by_cases hn : n = ""
  · simp [hn, complete_or_absent]
  · rw [if_neg hn]
    by_cases hkc : s.kcAvail = true
    · by_cases htr :
          (pyTruthy (kcGetPassword s (get_keychain_key n "token")) &&
            pyTruthy (kcGetPassword s (get_keychain_key n "secret"))) = true
      · simp only [hkc, if_true, htr]
        have h1 := (Bool.and_eq_true _ _).mp htr
        obtain ⟨tv, hto, htv⟩ := pyTruthy_iff.mp h1.1
        obtain ⟨sv, hso, hsv⟩ := pyTruthy_iff.mp h1.2
        simp [hto, hso, complete_or_absent, htv, hsv]
      · simp only [hkc, if_true, htr, Bool.false_eq_true, if_false]
        exact load_file_part_complete n s hwf
    · simp only [hkc, Bool.false_eq_true, if_false]
      exact load_file_part_complete n s hwf

/-- C4 witness: the amended theorem at a concrete well-formed state. -/
theorem C4_load_complete_or_absent_witness :
    complete_or_absent
        (load_account "A"
          ⟨false, [], [],
            some ⟨some 2, some [("A", ⟨some "T", some "S"⟩)], none, none⟩,
            true, none, none⟩) = true :=
  C4_load_complete_or_absent "A"
    ⟨false, [], [],
      some ⟨some 2, some [("A", ⟨some "T", some "S"⟩)], none, none⟩,
      true, none, none⟩ (by decide)

/-! ## C9 -/

/-- C9, counterexample to the claim as frozen: `get_storage_type` consults
only the token environment variable, so with the token set and the secret
unset it still answers `"environment"`, although the both-present-and-non-empty
condition of the Environment Probe fails. -/
theorem C9_counterexample :
    get_storage_type ⟨false, [], [], none, true, some "T", none⟩ =
      "environment" ∧
    (pyTruthy (some "T") && pyTruthy (none : Option String)) = false := by
  refine ⟨by decide, by decide⟩

/-- C9 (amended): `get_storage_type` equals the amended classifier:
`"environment"` exactly when the token environment variable alone is set
non-empty; else `"keychain"` when the backend is available and the index is
non-empty or a legacy un-namespaced token is present; else `"file"` when
the file exists; else `"none"`. -/
theorem C9_storage_type_eq_amended (s : St) :
    get_storage_type s = storage_type_amended_spec s := by
  unfold get_storage_type storage_type_amended_spec is_keyring_available
    list_keychain_accounts kcGetPassword
  by_cases h1 : pyTruthy s.envToken = true
  · simp [h1]
  · by_cases h2 : s.kcAvail = true
    · by_cases h3 : s.kcIndex.isEmpty = true
      · by_cases h4 : pyTruthy (kvGet s.kcStore "token") = true
        · simp [h1, h2, h3, h4]
        · simp [h1, h2, h3, h4]
      · simp [h1, h2, h3]
    · simp [h1, h2]

theorem write_file_data_writable (s : St) (d : Doc)
    (hw : s.fileWritable = true) :
    write_file_data s d = (true, { s with file := some d }) := by
  simp [write_file_data, hw]

/-- The keychain half of `delete_account` never touches the file fields, and
whenever the backend is available it leaves no `name:token` secret behind
(either the key was already absent, so the first delete raised before the
second, or it was removed). -/
theorem kc_del_part_spec (n : String) (s : St) :
    (delete_account_keychain_part n s).2.file = s.file ∧
    (delete_account_keychain_part n s).2.fileWritable = s.fileWritable ∧
    (delete_account_keychain_part n s).2.kcAvail = s.kcAvail ∧
    (s.kcAvail = true →
      kvGet (delete_account_keychain_part n s).2.kcStore
        (get_keychain_key n "token") = none) := by
  set kT := get_keychain_key n "token" with hkT
  set kS := get_keychain_key n "secret" with hkS
  unfold delete_account_keychain_part
  by_cases hkc : s.kcAvail = true
  · rw [if_pos hkc]
    cases hdel1 : kcDeletePassword s kT with
    | none =>
      have hkv : kvGet s.kcStore kT = none := by
        cases hkv : kvGet s.kcStore kT with
        | none => rfl
        | some v => simp [kcDeletePassword, hkv] at hdel1
      exact ⟨rfl, rfl, rfl, fun _ => hkv⟩
    | some s₁ =>
      have hs₁ : s₁ = { s with kcStore := kvRemove s.kcStore kT } := by
        by_cases hkv : (kvGet s.kcStore kT).isSome = true
        · simp only [kcDeletePassword, hkv, if_true,
            Option.some.injEq] at hdel1
          exact hdel1.symm
        · simp [kcDeletePassword, hkv] at hdel1
      subst hs₁
      dsimp only
      cases hdel2 : kcDeletePassword { s with kcStore := kvRemove s.kcStore kT }
          kS with
      | none =>
        exact ⟨rfl, rfl, rfl, fun _ => kvGet_remove_self _ _⟩
      | some s₂ =>
        have hs₂ : s₂ =
            { s with kcStore := kvRemove (kvRemove s.kcStore kT) kS } := by
          by_cases hkv : (kvGet (kvRemove s.kcStore kT) kS).isSome = true
          · simp only [kcDeletePassword, hkv, if_true,
              Option.some.injEq] at hdel2
            exact hdel2.symm
          · simp [kcDeletePassword, hkv] at hdel2
        subst hs₂
        dsimp only
        split
        · refine ⟨rfl, rfl, rfl, fun _ => ?_⟩
          rw [kvGet_remove_ne _ _ _ (hkT ▸ hkS ▸ key_token_ne_key_secret n),
            kvGet_remove_self]
        · refine ⟨rfl, rfl, rfl, fun _ => ?_⟩
          rw [kvGet_remove_ne _ _ _ (hkT ▸ hkS ▸ key_token_ne_key_secret n),
            kvGet_remove_self]
  · rw [if_neg hkc]
    exact ⟨rfl, rfl, rfl, fun h => absurd h hkc⟩

/-- When the keychain cannot produce a complete pair for a name,
`load_account` reduces to its file half. -/
theorem load_eq_file_part (n : String) (s : St) (hn : ¬ n = "")
    (h : s.kcAvail = true →
      pyTruthy (kcGetPassword s (get_keychain_key n "token")) = false) :
    load_account n s = load_account_file_part n s := by
  unfold load_account
  rw [if_neg hn]
  by_cases hkc : s.kcAvail = true
  · have hp := h hkc
    simp [hkc, hp]
  · simp [hkc]

/-! ## C2 -/

/-- C2, counterexample to the claim as frozen: when the account lives in a
legacy-shaped file document (the implicit account `"Standard"`),
`delete_account` performs no file-side deletion (its file branch handles
only multi-account documents), so a subsequent `load_account "Standard"`
still returns the credential, not absent. -/
theorem C2_counterexample :
    delete_account "Standard"
        ⟨false, [], [], some ⟨none, none, some "T", some "S"⟩,
          true, none, none⟩ =
      (false,
        ⟨false, [], [], some ⟨none, none, some "T", some "S"⟩,
          true, none, none⟩) ∧
    load_account "Standard"
        (delete_account "Standard"
          ⟨false, [], [], some ⟨none, none, some "T", some "S"⟩,
            true, none, none⟩).2 = (some "T", some "S") ∧
    ((some "T" : Option String), (some "S" : Option String)) ≠
      (none, none) := by
  refine ⟨by decide, by decide, by decide⟩

/-- Core of claims C2 and C10: deletion followed by a load is absent, as
long as file writes succeed and the name is not the `"Standard"` account of
a legacy-shaped file document (which the file branch of `delete_account`
cannot remove). -/
theorem delete_then_load_absent (n : String) (s : St)
    (hw : s.fileWritable = true)
    (hleg : ¬(is_legacy_format (read_file_data s) = true ∧ n = "Standard")) :
    load_account n (delete_account n s).2 = (none, none) := by
  by_cases hn : n = ""
  · simp [load_account, hn]
  · obtain ⟨hf, hfw, hav, htok⟩ := kc_del_part_spec n s
    have hdata : read_file_data (delete_account_keychain_part n s).2 =
        read_file_data s := by
      unfold read_file_data
      rw [hf]
    simp only [delete_account]
    by_cases hcond : (is_multi_account_format
          (read_file_data (delete_account_keychain_part n s).2) &&
        (kvGet ((read_file_data
            (delete_account_keychain_part n s).2).accounts.getD [])
          n).isSome) = true
    · rw [if_pos hcond]
      rw [write_file_data_writable _ _ (by rw [hfw]; exact hw)]
      rw [load_eq_file_part n _ hn ?side]
      case side =>
        intro hkca
        have := htok (by rw [← hav]; exact hkca)
        simp [kcGetPassword, this, pyTruthy]
      unfold load_account_file_part
      have hrd2 : read_file_data
          { (delete_account_keychain_part n s).2 with
            file := some { read_file_data (delete_account_keychain_part n s).2 with
              accounts := some (kvRemove ((read_file_data
                (delete_account_keychain_part n s).2).accounts.getD [])
                n) } } =
          { read_file_data (delete_account_keychain_part n s).2 with
            accounts := some (kvRemove ((read_file_data
              (delete_account_keychain_part n s).2).accounts.getD [])
              n) } := rfl
      rw [hrd2]
      simp only [Bool.and_eq_true] at hcond
      have hmul2 : is_multi_account_format
          { read_file_data (delete_account_keychain_part n s).2 with
            accounts := some (kvRemove ((read_file_data
              (delete_account_keychain_part n s).2).accounts.getD [])
              n) } = true := by
        unfold is_multi_account_format at hcond ⊢
        simp only [Bool.and_eq_true, beq_iff_eq] at hcond ⊢
        exact ⟨hcond.1.1, rfl⟩
      rw [if_pos hmul2]
      simp [kvGet_remove_self]
    · rw [if_neg hcond]
      rw [load_eq_file_part n _ hn ?side2]
      case side2 =>
        intro hkca
        have := htok (by rw [← hav]; exact hkca)
        simp [kcGetPassword, this, pyTruthy]
      unfold load_account_file_part
      rw [hdata] at hcond ⊢
      by_cases hmul : is_multi_account_format (read_file_data s) = true
      · rw [if_pos hmul]
        have hget : (kvGet ((read_file_data s).accounts.getD []) n).isSome
            = false := by
          cases hg : (kvGet ((read_file_data s).accounts.getD []) n) with
          | none => rfl
          | some e =>
            exfalso
            exact hcond (by simp [hmul, hg])
        cases hg : kvGet ((read_file_data s).accounts.getD []) n with
        | none => simp [hg]
        | some e => rw [hg] at hget; simp at hget
      · rw [if_neg hmul]
        by_cases hlegn : (is_legacy_format (read_file_data s) &&
            (n == "Standard")) = true
        · exfalso
          simp only [Bool.and_eq_true, beq_iff_eq] at hlegn
          exact hleg ⟨hlegn.1, hlegn.2⟩
        · rw [if_neg hlegn]

/-- C2 (amended): `delete_account n` followed by `load_account n` returns
absent whichever backend held the account — keychain or multi-account file —
provided file writes succeed and the account is not the `"Standard"` account
of a legacy-shaped file document, which `delete_account` cannot remove
(`C2_counterexample`). -/
theorem C2_delete_then_load (n : String) (s : St)
    (hw : s.fileWritable = true)
    (hleg : ¬(is_legacy_format (read_file_data s) = true ∧ n = "Standard")) :
    load_account n (delete_account n s).2 = (none, none) :=
  delete_then_load_absent n s hw hleg

/-- C2 witness: the amended theorem at a concrete state holding `"A"` in
both the keychain and a multi-account file. -/
theorem C2_delete_then_load_witness :
    load_account "A"
        (delete_account "A"
          ⟨true, [("A:token", "T"), ("A:secret", "S")], ["A"],
            some ⟨some 2, some [("A", ⟨some "T", some "S"⟩)], none, none⟩,
            true, none, none⟩).2 = (none, none) :=
  C2_delete_then_load "A"
    ⟨true, [("A:token", "T"), ("A:secret", "S")], ["A"],
      some ⟨some 2, some [("A", ⟨some "T", some "S"⟩)], none, none⟩,
      true, none, none⟩ (by decide) (by decide)

/-- With the keychain unavailable and the file unwritable, every
`save_account` attempt fails and returns the state unchanged. -/
theorem save_account_fails_unwritable (m t sec : String) (s : St)
    (hkc : s.kcAvail = false) (hw : s.fileWritable = false) :
    (save_account m t sec true s).1 = false ∧
    (save_account m t sec true s).2.2 = s := by
  unfold save_account
  split
  · exact ⟨rfl, rfl⟩
  · simp [save_account_file_part, write_file_data, hkc, hw]

/-- A writable file accepts every file-half save. -/
theorem file_part_ok (m t sec : String) (s : St) (hw : s.fileWritable = true) :
    (save_account_file_part m t sec s).1 = true := by
  simp [save_account_file_part, write_file_data, hw]

theorem kcPart_fileWritable (n t sec : String) (s : St) :
    (save_account_keychain_part n t sec s).fileWritable = s.fileWritable := by
  simp only [save_account_keychain_part, kcSetPassword]
  split <;> rfl

/-! ## C6 -/

/-- C6: `rename_account old new` fails with the whole state unchanged (so no
state change to either account) whenever the trimmed new name already names
an existing account and differs from old; and whenever the internal save
cannot succeed (keychain unavailable and file unwritable — the only failing
save in this embedding), the function returns before attempting the delete,
again with the state unchanged, so old remains loadable. -/
theorem C6_rename_fail_no_change (old_name new_name : String) (s : St)
    (h : ((list_accounts s).contains (pyStrip new_name) = true ∧
          pyStrip new_name ≠ old_name) ∨
         (s.kcAvail = false ∧ s.fileWritable = false)) :
    (rename_account old_name new_name s).1 = false ∧
    (rename_account old_name new_name s).2.2 = s := by
  simp only [rename_account]
  split
  · exact ⟨rfl, rfl⟩
  · split
    · exact ⟨rfl, rfl⟩
    · split
      · exact ⟨rfl, rfl⟩
      · rename_i hexists
        cases h with
        | inl h1 => exact absurd (by rw [h1.1]; simp [h1.2]) hexists
        | inr h2 =>
          obtain ⟨hkc, hw⟩ := h2
          obtain ⟨hf1, hf2⟩ := save_account_fails_unwritable (pyStrip new_name)
            ((load_account old_name s).1.getD "")
            ((load_account old_name s).2.getD "") s hkc hw
          constructor
          · simp [hf1]
          · simp [hf1, hf2]

/-- C6 witness: renaming `"A"` to the already-existing `"B"` fails and
changes nothing. -/
theorem C6_rename_fail_no_change_witness :
    (rename_account "A" "B"
        ⟨false, [], [],
          some ⟨some 2, some [("A", ⟨some "T", some "S"⟩),
            ("B", ⟨some "U", some "V"⟩)], none, none⟩,
          true, none, none⟩).1 = false ∧
    (rename_account "A" "B"
        ⟨false, [], [],
          some ⟨some 2, some [("A", ⟨some "T", some "S"⟩),
            ("B", ⟨some "U", some "V"⟩)], none, none⟩,
          true, none, none⟩).2.2 =
      ⟨false, [], [],
        some ⟨some 2, some [("A", ⟨some "T", some "S"⟩),
          ("B", ⟨some "U", some "V"⟩)], none, none⟩,
        true, none, none⟩ :=
  C6_rename_fail_no_change "A" "B" _ (Or.inl ⟨by decide, by decide⟩)

/-! ## C10 -/

/-- C10, counterexample to the claim as frozen: with the keychain available
and the account held in a legacy-shaped file, `rename_account("Standard",
"Standard")` reports success (it saves the pair into the keychain, then
deletes it from the keychain again), but the legacy file copy survives — so
`load_account "Standard"` afterwards still returns the credential instead
of absent: the account is NOT destroyed in this state. -/
theorem C10_counterexample :
    (rename_account "Standard" "Standard"
        ⟨true, [], [], some ⟨none, none, some "T", some "S"⟩,
          true, none, none⟩).1 = true ∧
    load_account "Standard"
        (rename_account "Standard" "Standard"
          ⟨true, [], [], some ⟨none, none, some "T", some "S"⟩,
            true, none, none⟩).2.2 = (some "T", some "S") ∧
    ((some "T" : Option String), (some "S" : Option String)) ≠
      (none, none) := by
  refine ⟨by decide, by decide, by decide⟩

/-- C10 (amended): for every existing loadable account `n` (name already
trimmed), with a writable file, `rename_account n n` reports success and
destroys the account — it saves under `n` and then deletes `n`, so
`load_account n` afterwards returns absent — EXCEPT when the keychain is
available while the account is the `"Standard"` account of a legacy-shaped
file: there the save lands in the keychain, the legacy file copy is not
deletable, and the account survives (`C10_counterexample`). -/
theorem C10_rename_self_destroys (n : String) (s : St)
    (hstrip : pyStrip n = n)
    (hload1 : pyTruthy (load_account n s).1 = true)
    (hload2 : pyTruthy (load_account n s).2 = true)
    (hw : s.fileWritable = true)
    (hcorner : ¬(s.kcAvail = true ∧
      is_legacy_format (read_file_data s) = true ∧ n = "Standard")) :
    (rename_account n n s).1 = true ∧
    load_account n (rename_account n n s).2.2 = (none, none) := by
  have hn : ¬ n = "" := by
    intro hn
    rw [hn] at hload1
    simp [load_account, pyTruthy] at hload1
  simp only [rename_account]
  rw [if_neg (by simp [hstrip, hn])]
  rw [hstrip]
  rw [if_neg (by simp [hload1, hload2])]
  rw [if_neg (by simp)]
  by_cases hkc : s.kcAvail = true
  · have hsv : save_account n ((load_account n s).1.getD "")
        ((load_account n s).2.getD "") true s =
        (true, "keychain", save_account_keychain_part n
          ((load_account n s).1.getD "") ((load_account n s).2.getD "") s) := by
      unfold save_account
      rw [if_neg (by simp [hstrip, hn]), hstrip]
      simp [hkc]
    rw [hsv]
    simp only [Bool.not_true, Bool.false_eq_true, if_false]
    refine ⟨by simp, ?_⟩
    apply delete_then_load_absent
    · rw [kcPart_fileWritable]
      exact hw
    · intro hcontra
      apply hcorner
      refine ⟨hkc, ?_, hcontra.2⟩
      have : read_file_data (save_account_keychain_part n
          ((load_account n s).1.getD "") ((load_account n s).2.getD "") s) =
          read_file_data s := by
        unfold read_file_data
        rw [kcPart_file]
      rw [this] at hcontra
      exact hcontra.1
  · have hkcF : s.kcAvail = false := by
      cases hcc : s.kcAvail with
      | false => rfl
      | true => exact absurd hcc hkc
    have hunf : save_account n ((load_account n s).1.getD "")
        ((load_account n s).2.getD "") true s =
        save_account_file_part n ((load_account n s).1.getD "")
          ((load_account n s).2.getD "") s := by
      unfold save_account
      rw [if_neg (by simp [hstrip, hn]), hstrip, hkcF]
      simp
    have hok : (save_account_file_part n ((load_account n s).1.getD "")
        ((load_account n s).2.getD "") s).1 = true :=
      file_part_ok _ _ _ _ hw
    have hsave3 : save_account_file_part n ((load_account n s).1.getD "")
        ((load_account n s).2.getD "") s =
        (true,
          (save_account_file_part n ((load_account n s).1.getD "")
            ((load_account n s).2.getD "") s).2.1,
          (save_account_file_part n ((load_account n s).1.getD "")
            ((load_account n s).2.getD "") s).2.2) := by
      rw [← hok]
    obtain ⟨hb, hwf, hA, hSt, hI, hW, d, hfile, hmulti, hget⟩ :=
      file_part_success _ _ _ _ _ _ hsave3
    rw [hunf]
    simp only [hok, Bool.not_true, Bool.false_eq_true, if_false]
    refine ⟨by simp, ?_⟩
    apply delete_then_load_absent
    · rw [hW]
      exact hw
    · intro hcontra
      have hrd : read_file_data
          (save_account_file_part n ((load_account n s).1.getD "")
            ((load_account n s).2.getD "") s).2.2 = d := by
        unfold read_file_data
        rw [hfile]
        rfl
      rw [hrd] at hcontra
      unfold is_legacy_format at hcontra
      unfold is_multi_account_format at hmulti
      simp only [Bool.and_eq_true, beq_iff_eq] at hcontra hmulti
      rw [hmulti.1] at hcontra
      simp at hcontra

/-- C10 witness: the amended theorem at a concrete multi-account file state
(keychain unavailable): renaming `"A"` to itself destroys the account. -/
theorem C10_rename_self_destroys_witness :
    (rename_account "A" "A"
        ⟨false, [], [],
          some ⟨some 2, some [("A", ⟨some "T", some "S"⟩)], none, none⟩,
          true, none, none⟩).1 = true ∧
    load_account "A"
        (rename_account "A" "A"
          ⟨false, [], [],
            some ⟨some 2, some [("A", ⟨some "T", some "S"⟩)], none, none⟩,
            true, none, none⟩).2.2 = (none, none) :=
  C10_rename_self_destroys "A"
    ⟨false, [], [],
      some ⟨some 2, some [("A", ⟨some "T", some "S"⟩)], none, none⟩,
      true, none, none⟩
    (by decide) (by decide) (by decide) (by decide) (by decide)

/-- The best-effort legacy-key deletion phase of the keychain branch of
`migrate_single_to_multi`: with both legacy keys present, both are
removed. -/
theorem best_effort_delete_legacy_eq (s₃ : St)
    (ht : (kvGet s₃.kcStore "token").isSome = true)
    (hsc : (kvGet s₃.kcStore "secret").isSome = true) :
    best_effort_delete_legacy s₃ =
    { s₃ with kcStore := kvRemove (kvRemove s₃.kcStore "token") "secret" } := by
  have hd1 : kcDeletePassword s₃ "token" =
      some { s₃ with kcStore := kvRemove s₃.kcStore "token" } := by
    simp only [kcDeletePassword, ht, if_true]
  have h2 : kvGet (kvRemove s₃.kcStore "token") "secret" =
      kvGet s₃.kcStore "secret" :=
    kvGet_remove_ne _ _ _ (by decide)
  have hd2 : kcDeletePassword
      { s₃ with kcStore := kvRemove s₃.kcStore "token" } "secret" =
      some { s₃ with
        kcStore := kvRemove (kvRemove s₃.kcStore "token") "secret" } := by
    simp only [kcDeletePassword, h2, hsc, if_true]
  unfold best_effort_delete_legacy
  split
  · rename_i s' heq
    rw [hd1] at heq
    injection heq with heq
    subst heq
    split
    · rename_i s'' heq2
      rw [hd2] at heq2
      injection heq2 with heq2
      subst heq2
      rfl
    · rename_i heq2
      rw [hd2] at heq2
      simp at heq2
  · rename_i heq
    rw [hd1] at heq
    simp at heq

/-- The keychain branch of `migrate_single_to_multi` preserves the file
fields and availability, and when both legacy secrets are present it leaves
no legacy `"token"` key behind. -/
theorem migrate_kc_success_spec (a t sc : String) (s : St)
    (ht : (kvGet s.kcStore "token").isSome = true)
    (hsc : (kvGet s.kcStore "secret").isSome = true) :
    (migrate_single_keychain_success a t sc s).file = s.file ∧
    (migrate_single_keychain_success a t sc s).kcAvail = s.kcAvail ∧
    (migrate_single_keychain_success a t sc s).fileWritable =
      s.fileWritable ∧
    kvGet (migrate_single_keychain_success a t sc s).kcStore "token" =
      none := by
  have hgtok : kvGet (kvSet (kvSet s.kcStore (get_keychain_key a "token") t)
      (get_keychain_key a "secret") sc) "token" =
      kvGet s.kcStore "token" := by
    rw [kvGet_set_ne _ _ _ _ (Ne.symm (key_secret_ne_token a)),
      kvGet_set_ne _ _ _ _ (Ne.symm (key_token_ne_token a))]
  have hgsec : kvGet (kvSet (kvSet s.kcStore (get_keychain_key a "token") t)
      (get_keychain_key a "secret") sc) "secret" =
      kvGet s.kcStore "secret" := by
    rw [kvGet_set_ne _ _ _ _ (Ne.symm (key_secret_ne_secret a)),
      kvGet_set_ne _ _ _ _ (Ne.symm (key_token_ne_secret a))]
  simp only [migrate_single_keychain_success, kcSetPassword]
  split
  · rw [best_effort_delete_legacy_eq _ (by rw [hgtok]; exact ht)
      (by rw [hgsec]; exact hsc)]
    refine ⟨rfl, rfl, rfl, ?_⟩
    rw [kvGet_remove_ne _ _ _ (by decide), kvGet_remove_self]
  · rw [best_effort_delete_legacy_eq _ (by rw [hgtok]; exact ht)
      (by rw [hgsec]; exact hsc)]
    refine ⟨rfl, rfl, rfl, ?_⟩
    rw [kvGet_remove_ne _ _ _ (by decide), kvGet_remove_self]

/-! ## C3 -/

/-- C3, counterexample to the claim as frozen: in the state where the file
holds a legacy-shaped document AND the keychain holds legacy un-namespaced
`token`/`secret` keys, `migrate_single_to_multi` succeeds via the file
branch alone — it returns without touching the keychain — so
`needs_migration` is still true immediately afterwards. -/
theorem C3_counterexample :
    (migrate_single_to_multi "Standard"
        ⟨true, [("token", "KT"), ("secret", "KS")], [],
          some ⟨none, none, some "FT", some "FS"⟩, true, none, none⟩).1 =
      true ∧
    needs_migration
        (migrate_single_to_multi "Standard"
          ⟨true, [("token", "KT"), ("secret", "KS")], [],
            some ⟨none, none, some "FT", some "FS"⟩,
            true, none, none⟩).2.2 = true := by
  refine ⟨by decide, by decide⟩

/-- C3 (amended): immediately after a successful `migrate_single_to_multi`
(with a writable file), `needs_migration` returns false PROVIDED the two
backends were not both legacy at once; when both are legacy simultaneously
the file branch wins and returns without touching the keychain, leaving
`needs_migration` true (`C3_counterexample`). -/
theorem C3_migrate_then_needs_false (account_name : String) (s : St)
    (hw : s.fileWritable = true)
    (hboth : ¬(is_legacy_format (read_file_data s) = true ∧
        s.kcAvail = true ∧ pyTruthy (kvGet s.kcStore "token") = true))
    (hok : (migrate_single_to_multi account_name s).1 = true) :
    needs_migration (migrate_single_to_multi account_name s).2.2 = false := by
  by_cases hleg : is_legacy_format (read_file_data s) = true
  · have h2 : (s.kcAvail && pyTruthy (kvGet s.kcStore "token")) = false := by
      cases ha : s.kcAvail with
      | false => rfl
      | true =>
        cases hts : pyTruthy (kvGet s.kcStore "token") with
        | false => rfl
        | true => exact absurd ⟨hleg, ha, hts⟩ hboth
    have heq : (migrate_single_to_multi account_name s).2.2 =
        { s with file := some ⟨some CREDENTIAL_VERSION,
            some [(account_name,
              ⟨(read_file_data s).token, (read_file_data s).secret⟩)],
            none, none⟩ } := by
      unfold migrate_single_to_multi
      simp [hleg, write_file_data_writable s _ hw]
    rw [heq]
    simp [needs_migration, read_file_data, is_legacy_format, kcGetPassword,
      h2]
  · have hlegF : is_legacy_format (read_file_data s) = false := by
      cases hc : is_legacy_format (read_file_data s) with
      | false => rfl
      | true => exact absurd hc hleg
    unfold migrate_single_to_multi at hok ⊢
    simp only [hlegF, Bool.false_eq_true, if_false] at hok ⊢
    by_cases hkc : s.kcAvail = true
    · rw [if_pos hkc] at hok ⊢
      by_cases htr : (pyTruthy (kcGetPassword s "token") &&
          pyTruthy (kcGetPassword s "secret")) = true
      · rw [if_pos htr] at hok ⊢
        clear hok
        simp only [kcGetPassword] at htr ⊢
        have h1 := (Bool.and_eq_true _ _).mp htr
        have ht : (kvGet s.kcStore "token").isSome = true := by
          obtain ⟨v, hv, -⟩ := pyTruthy_iff.mp h1.1
          rw [hv]
          rfl
        have hsc : (kvGet s.kcStore "secret").isSome = true := by
          obtain ⟨v, hv, -⟩ := pyTruthy_iff.mp h1.2
          rw [hv]
          rfl
        obtain ⟨hf, ha, hfw, htok⟩ :=
          migrate_kc_success_spec account_name
            ((kvGet s.kcStore "token").getD "")
            ((kvGet s.kcStore "secret").getD "") s ht hsc
        have hrd : read_file_data (migrate_single_keychain_success
            account_name ((kvGet s.kcStore "token").getD "")
            ((kvGet s.kcStore "secret").getD "") s) = read_file_data s := by
          unfold read_file_data
          rw [hf]
        simp [needs_migration, kcGetPassword, hrd, hlegF, htok, pyTruthy]
      · rw [if_neg htr] at hok
        simp at hok
    · rw [if_neg hkc] at hok
      simp at hok

/-- C3 witness: the amended theorem where only the keychain is legacy. -/
theorem C3_migrate_then_needs_false_witness :
    needs_migration
        (migrate_single_to_multi "Standard"
          ⟨true, [("token", "T"), ("secret", "S")], [],
            none, true, none, none⟩).2.2 = false :=
  C3_migrate_then_needs_false "Standard"
    ⟨true, [("token", "T"), ("secret", "S")], [], none, true, none, none⟩
    (by decide) (by decide) (by decide)

/-! ## C8 -/

theorem best_effort_delete_preserves (s : St) :
    (best_effort_delete_legacy s).file = s.file ∧
    (best_effort_delete_legacy s).fileWritable = s.fileWritable := by
  unfold best_effort_delete_legacy
  split
  next s' heq =>
    have hs' : s'.file = s.file ∧ s'.fileWritable = s.fileWritable := by
      unfold kcDeletePassword at heq
      by_cases hh : (kvGet s.kcStore "token").isSome = true
      · simp only [hh, if_true, Option.some.injEq] at heq
        rw [← heq]
        exact ⟨rfl, rfl⟩
      · simp [hh] at heq
    split
    next s'' heq2 =>
      have hs'' : s''.file = s'.file ∧ s''.fileWritable = s'.fileWritable := by
        unfold kcDeletePassword at heq2
        by_cases hh : (kvGet s'.kcStore "secret").isSome = true
        · simp only [hh, if_true, Option.some.injEq] at heq2
          rw [← heq2]
          exact ⟨rfl, rfl⟩
        · simp [hh] at heq2
      exact ⟨hs''.1.trans hs'.1, hs''.2.trans hs'.2⟩
    next heq2 => exact hs'
  next heq => exact ⟨rfl, rfl⟩

theorem migrate_kc_any_preserves (a t sc : String) (s : St) :
    (migrate_single_keychain_success a t sc s).file = s.file ∧
    (migrate_single_keychain_success a t sc s).fileWritable =
      s.fileWritable := by
  simp only [migrate_single_keychain_success, kcSetPassword]
  split
  · exact ⟨(best_effort_delete_preserves _).1,
      (best_effort_delete_preserves _).2⟩
  · exact ⟨(best_effort_delete_preserves _).1,
      (best_effort_delete_preserves _).2⟩

/-- When the file cannot be written, `migrate_single_to_multi` never changes
the file (its keychain branch touches only keychain state). -/
theorem migrate_single_file_of_unwritable (a : String) (s : St)
    (hw : s.fileWritable = false) :
    (migrate_single_to_multi a s).2.2.file = s.file := by
  unfold migrate_single_to_multi
  have hwr : write_file_data s
      ⟨some CREDENTIAL_VERSION,
        some [(a, ⟨(read_file_data s).token, (read_file_data s).secret⟩)],
        none, none⟩ = (false, s) := by
    simp [write_file_data, hw]
  by_cases hleg : is_legacy_format (read_file_data s) = true
  · simp only [hleg, if_true, hwr]
    by_cases hkc : s.kcAvail = true
    · rw [if_pos hkc]
      by_cases htr : (pyTruthy (kcGetPassword s "token") &&
          pyTruthy (kcGetPassword s "secret")) = true
      · rw [if_pos htr]
        exact (migrate_kc_any_preserves _ _ _ _).1
      · rw [if_neg htr]
    · rw [if_neg hkc]
  · have hlegF : is_legacy_format (read_file_data s) = false := by
      cases hc : is_legacy_format (read_file_data s) with
      | false => rfl
      | true => exact absurd hc hleg
    simp only [hlegF, Bool.false_eq_true, if_false]
    by_cases hkc : s.kcAvail = true
    · rw [if_pos hkc]
      by_cases htr : (pyTruthy (kcGetPassword s "token") &&
          pyTruthy (kcGetPassword s "secret")) = true
      · rw [if_pos htr]
        exact (migrate_kc_any_preserves _ _ _ _).1
      · rw [if_neg htr]
    · rw [if_neg hkc]

/-- The copy loop of `migrate_file_to_keychain` touches only keychain
state. -/
theorem migrate_loop_preserves (l : List (String × AccountEntry))
    (acc : Nat × St) :
    (l.foldl migrate_one_account acc).2.file = acc.2.file ∧
    (l.foldl migrate_one_account acc).2.fileWritable =
      acc.2.fileWritable := by
  induction l generalizing acc with
  | nil => exact ⟨rfl, rfl⟩
  | cons p rest ih =>
    rw [List.foldl_cons]
    have hone : (migrate_one_account acc p).2.file = acc.2.file ∧
        (migrate_one_account acc p).2.fileWritable = acc.2.fileWritable := by
      simp only [migrate_one_account, kcSetPassword]
      split
      · split
        · exact ⟨rfl, rfl⟩
        · exact ⟨rfl, rfl⟩
      · exact ⟨rfl, rfl⟩
    refine ⟨?_, ?_⟩
    · rw [(ih _).1, hone.1]
    · rw [(ih _).2, hone.2]

/-- A successful `migrate_file_body` deletes the file and reports the
positive count. -/
theorem migrate_file_body_ok (s1 : St)
    (hok : (migrate_file_body s1).1 = true) :
    (migrate_file_body s1).2.2.file = none ∧
    ∃ k, 0 < k ∧ (migrate_file_body s1).2.1 = migratedMsg k := by
  unfold migrate_file_body at hok ⊢
  by_cases hmul : is_multi_account_format (read_file_data s1) = true
  · simp only [hmul, Bool.not_true, Bool.false_eq_true, if_false] at hok ⊢
    by_cases hpos : (((read_file_data s1).accounts.getD []).foldl
        migrate_one_account (0, s1)).1 > 0
    · rw [if_pos hpos]
      exact ⟨rfl, _, hpos, rfl⟩
    · rw [if_neg hpos] at hok
      simp at hok
  · simp [hmul] at hok

/-- A failing `migrate_file_body` leaves the file exactly as given. -/
theorem migrate_file_body_fail (s1 : St)
    (hfail : (migrate_file_body s1).1 = false) :
    (migrate_file_body s1).2.2.file = s1.file := by
  unfold migrate_file_body at hfail ⊢
  by_cases hmul : is_multi_account_format (read_file_data s1) = true
  · simp only [hmul, Bool.not_true, Bool.false_eq_true, if_false] at hfail ⊢
    by_cases hpos : (((read_file_data s1).accounts.getD []).foldl
        migrate_one_account (0, s1)).1 > 0
    · rw [if_pos hpos] at hfail
      simp at hfail
    · rw [if_neg hpos]
      exact (migrate_loop_preserves _ _).1
  · simp only [hmul, Bool.not_false, if_true]

/-- C8, counterexample to the claim as frozen: a legacy file whose pair is
present but empty.  Zero accounts are copied, the operation reports failure —
but the file is NOT left unchanged: the preliminary `migrate_single_to_multi`
normalization has already rewritten the legacy document into the versioned
multi-account shape. -/
theorem C8_counterexample :
    (migrate_file_to_keychain
        ⟨true, [], [], some ⟨none, none, some "", some ""⟩,
          true, none, none⟩).1 = false ∧
    (migrate_file_to_keychain
        ⟨true, [], [], some ⟨none, none, some "", some ""⟩,
          true, none, none⟩).2.2.file ≠
      some ⟨none, none, some "", some ""⟩ := by
  refine ⟨by decide, by decide⟩

/-- C8 (amended): `migrate_file_to_keychain` (i) fails immediately with no
state change when the keychain backend is unavailable; (ii) on success
deletes the credentials file entirely and reports the positive count of
copied accounts; (iii) on failure with the keychain available it does not
delete the file — the file is unchanged, EXCEPT that a legacy-shaped
document (with writes succeeding) has already been normalized to the
versioned multi-account shape by the preliminary `migrate_single_to_multi`
step (`C8_counterexample`). -/
theorem C8_migrate_file_spec (s : St) :
    (s.kcAvail = false →
      migrate_file_to_keychain s =
        (false,
          "Keyring er ikke tilgjengelig. Installer med: pip install keyring",
          s)) ∧
    ((migrate_file_to_keychain s).1 = true →
      (migrate_file_to_keychain s).2.2.file = none ∧
      ∃ k, 0 < k ∧ (migrate_file_to_keychain s).2.1 = migratedMsg k) ∧
    (s.kcAvail = true → (migrate_file_to_keychain s).1 = false →
      (migrate_file_to_keychain s).2.2.file =
        (if is_legacy_format (read_file_data s) = true ∧
            s.fileWritable = true then
          some ⟨some CREDENTIAL_VERSION,
            some [("Standard",
              ⟨(read_file_data s).token, (read_file_data s).secret⟩)],
            none, none⟩
        else s.file)) := by
  refine ⟨?_, ?_, ?_⟩
  · intro hkc
    simp [migrate_file_to_keychain, hkc]
  · intro hok
    unfold migrate_file_to_keychain at hok ⊢
    by_cases hkc : s.kcAvail = true
    · simp only [hkc, Bool.not_true, Bool.false_eq_true, if_false] at hok ⊢
      exact migrate_file_body_ok _ hok
    · have hkcF : s.kcAvail = false := by
        cases hc : s.kcAvail with
        | false => rfl
        | true => exact absurd hc hkc
      simp [hkcF] at hok
  · intro hkc hfail
    unfold migrate_file_to_keychain at hfail ⊢
    simp only [hkc, Bool.not_true, Bool.false_eq_true, if_false] at hfail ⊢
    by_cases hleg : is_legacy_format (read_file_data s) = true
    · rw [if_pos hleg] at hfail ⊢
      by_cases hw : s.fileWritable = true
      · rw [if_pos ⟨hleg, hw⟩]
        have hb := migrate_file_body_fail _ hfail
        rw [hb]
        have heq : (migrate_single_to_multi "Standard" s).2.2 =
            { s with file := some ⟨some CREDENTIAL_VERSION,
                some [("Standard",
                  ⟨(read_file_data s).token, (read_file_data s).secret⟩)],
                none, none⟩ } := by
          unfold migrate_single_to_multi
          simp [hleg, write_file_data_writable s _ hw]
        rw [heq]
      · have hwF : s.fileWritable = false := by
          cases hc : s.fileWritable with
          | false => rfl
          | true => exact absurd hc hw
        rw [if_neg (fun hc => absurd hc.2 hw)]
        have hb := migrate_file_body_fail _ hfail
        rw [hb, migrate_single_file_of_unwritable "Standard" s hwF]
    · rw [if_neg hleg] at hfail ⊢
      rw [if_neg (fun hc => hleg hc.1)]
      exact migrate_file_body_fail _ hfail

end Domeneshop
